import Mathlib

/-!
Verification of the query-resolution service in src/index.js.

The embedding is shallow: each JavaScript function of the source becomes a
Lean function over explicit state.  External effects are made explicit
parameters:

* the persisted API-key file (read by loadApiKeys, written by saveApiKeys)
  becomes an `Option (List ApiKey)` value, `none` meaning the file does not
  exist;
* the current wall clock (`new Date()`) becomes an `Int` of milliseconds
  since the epoch;
* the output of `crypto.randomBytes(16).toString(&quot;hex&quot;)` becomes a
  `String` parameter;
* the SQLite `responses` table becomes a `List QAPair` in insertion order;
* the classification produced by the external node-nlp manager for a given
  prompt becomes an `Option String` parameter (`response.answer`, which is
  a string when node-nlp found an answer and undefined otherwise);
* the moment-timezone zone database becomes a `String → Bool` predicate and
  the formatted current local time of a zone a `String → String` function;
* the ordered result list of a Fuse.js search over the stored questions
  becomes a `List String` parameter.

Timestamps are compared exactly as the source compares `Date` values, by
their millisecond number.  `expiration.setDate(getDate() + 7)` is modelled
as adding seven days of milliseconds (the DST-free reading of calendar-day
addition).
-/

namespace Sim

/-- One record of the persisted apikeys.json file: `{api_key, expiration}`. -/
structure ApiKey where
  api_key : String
  expiration : Int
deriving DecidableEq, Repr

/-- One row of the `responses` table: `{question, answer}`. -/
structure QAPair where
  question : String
  answer : String
deriving DecidableEq, Repr

/-- Source `API_KEY_EXPIRY_DAYS = 7`. -/
def API_KEY_EXPIRY_DAYS : Int := 7

/-- Milliseconds in one day. -/
def dayMs : Int := 24 * 60 * 60 * 1000

/-- Source `loadApiKeys`: return the parsed file when it exists, else `[]`. -/
def loadApiKeys (file : Option (List ApiKey)) : List ApiKey :=
  match file with
  | some keys => keys
  | none => []

/-- Source `validateApiKey`: `apiKeys.find(key => key.api_key === apiKey)`
followed by `keyData && new Date(keyData.expiration) > new Date()`. -/
def validateApiKey (file : Option (List ApiKey)) (apiKey : String) (now : Int) : Bool :=
  match (loadApiKeys file).find? (fun key => key.api_key == apiKey) with
  | some keyData => decide (now < keyData.expiration)
  | none => false

/-- Source `generateApiKey`: build the `nsh-` token from the random hex,
stamp `now` plus the seven-day window, append to the loaded record set
(which is then saved back), and return the token together with the record
set that was saved. -/
def generateApiKey (randHex : String) (now : Int) (file : Option (List ApiKey)) :
    String × List ApiKey :=
  let apiKey := "nsh-" ++ randHex
  let expiration := now + API_KEY_EXPIRY_DAYS * dayMs
  let apiKeys := loadApiKeys file
  (apiKey, apiKeys ++ [{ api_key := apiKey, expiration := expiration }])

/-- The pure part of source `deleteExpiredApiKeys`:
`apiKeys.filter(key => new Date(key.expiration) > new Date())`. -/
def sweepList (apiKeys : List ApiKey) (now : Int) : List ApiKey :=
  apiKeys.filter (fun key => decide (now < key.expiration))

/-- Source `deleteExpiredApiKeys`: load, filter, save; the result is the
record set written back to the file. -/
def deleteExpiredApiKeys (file : Option (List ApiKey)) (now : Int) : List ApiKey :=
  sweepList (loadApiKeys file) now

/-- Source `app.get(&quot;/api/keys&quot;)`: status 200 with the loaded record set. -/
def apiKeysHandler (file : Option (List ApiKey)) : Nat × List ApiKey :=
  (200, loadApiKeys file)

/-- The whitespace class of the JavaScript regexes `\s` (ASCII part; the
source never feeds the exotic Unicode spaces through these regexes). -/
def isJsSpace (c : Char) : Bool :=
  c == ' ' || c == '\t' || c == '\n' || c == '\r' || c == '\x0b' || c == '\x0c'

/-- The character class `[\w\/\-\s]` of the time-query regex:
ASCII letters and digits, underscore, slash, hyphen, whitespace. -/
def isTzChar (c : Char) : Bool :=
  c.isAlpha || c.isDigit || c == '_' || c == '/' || c == '-' || isJsSpace c

/-- The literal part of the regex `/current time in ([\w\/\-\s]+)/i`,
kept in lowercase for case-insensitive comparison. -/
def timeLit : List Char := "current time in ".data

/-- Match the (lowercase) literal `lit` against the head of `cs`,
case-insensitively; on success return the remaining characters. -/
def matchLitCI : List Char → List Char → Option (List Char)
  | [], cs => some cs
  | _ :: _, [] => none
  | l :: ls, c :: cs => if c.toLower == l then matchLitCI ls cs else none

/-- Leftmost match of `/current time in ([\w\/\-\s]+)/i`: scan left to
right; at the first position where the literal matches and is followed by
at least one class character, capture the maximal (greedy) run of class
characters. -/
def findTimeQuery : List Char → Option (List Char)
  | [] => none
  | c :: cs =>
    match matchLitCI timeLit (c :: cs) with
    | some rest =>
      let cap := rest.takeWhile isTzChar
      if cap.isEmpty then findTimeQuery cs else some cap
    | none => findTimeQuery cs

/-- Source `prompt.match(/current time in ([\w\/\-\s]+)/i)`: the first
capture group of the leftmost match, when the prompt matches. -/
def extractTimeQuery (prompt : String) : Option String :=
  match findTimeQuery prompt.data with
  | some cs => some (String.mk cs)
  | none => none

/-- Source `timezoneMatch[1].replace(/\s/g, &quot;_&quot;)`. -/
def spacesToUnderscores (s : String) : String :=
  String.mk (s.data.map (fun c => if isJsSpace c then '_' else c))

/-- Source `timezone.replace(/_/g, &quot; &quot;)` inside `generateTimeResponse`. -/
def underscoresToSpaces (s : String) : String :=
  String.mk (s.data.map (fun c => if c == '_' then ' ' else c))

/-- Source `generateTimeResponse`: `tzdb` stands for truthiness of
`moment.tz.zone(timezone)` and `fmt timezone` for
`moment().tz(timezone).format(&quot;MMMM Do YYYY, h:mm:ss a&quot;)`. -/
def generateTimeResponse (tzdb : String → Bool) (fmt : String → String)
    (timezone : String) : String :=
  if tzdb timezone = false then "Invalid timezone."
  else
    "The current time in " ++ underscoresToSpaces timezone ++ " is " ++ fmt timezone ++ "."

/-- Which stage of the resolution pipeline produced the response. -/
inductive RSource
  | matcher
  | temporal
  | fuzzy
  | defaultMsg
deriving DecidableEq, Repr

/-- JavaScript truthiness of `response.answer`: node-nlp leaves the field
undefined when nothing matched (`none` here), and a string is truthy
exactly when it is nonempty. -/
def answerTruthy : Option String → Bool
  | some a => a != ""
  | none => false

/-- The fixed message of the final pipeline branch. -/
def dontKnowMessage : String :=
  "I\x27m not sure how to respond to that. Ask something else."

/-- The strategy chain of the `/nash` handler after the API-key gate:
matcher answer if truthy, else the time-query regex, else the first Fuse
result, else the fixed message.  `fz` is the ordered Fuse.js result list
for the prompt over the stored questions. -/
def nashResolve (ans : Option String) (prompt : String) (tzdb : String → Bool)
    (fmt : String → String) (fz : List String) : String × RSource :=
  if answerTruthy ans then (ans.getD "", RSource.matcher)
  else
    match extractTimeQuery prompt with
    | some loc =>
      (generateTimeResponse tzdb fmt (spacesToUnderscores loc), RSource.temporal)
    | none =>
      match fz with
      | m :: _ => ("Did you mean: \"" ++ m ++ "\"?", RSource.fuzzy)
      | [] => (dontKnowMessage, RSource.defaultMsg)

/-- Source `app.get(&quot;/nash&quot;)` after parameter validation: the 403 gate on
`validateApiKey`, then the pipeline with status 200 on every branch. -/
def nashHandler (file : Option (List ApiKey)) (now : Int) (apiKey : String)
    (ans : Option String) (prompt : String) (tzdb : String → Bool)
    (fmt : String → String) (fz : List String) : Nat × String :=
  if validateApiKey file apiKey now = false then (403, "Invalid API key")
  else (200, (nashResolve ans prompt tzdb fmt fz).1)

/-- Source `app.get(&quot;/teach&quot;)` after parameter validation, acting on the
`responses` table.  The duplicate SELECT, the INSERT, and the outcome are
modelled; `trainFails` injects a failure of the later
`manager.train()` / `manager.save()` step, which the catch block turns
into the 500 response after the row was already inserted. -/
def teachHandler (store : List QAPair) (question answer : String) (trainFails : Bool) :
    List QAPair × Nat × String :=
  if (store.filter (fun row => row.question == question && row.answer == answer)).length > 0 then
    (store, 200, "This answer already exists for the question")
  else
    let store2 := store ++ [{ question := question, answer := answer }]
    if trainFails then (store2, 500, "Error training the chatbot")
    else (store2, 200, "Training successful")

/-- The supported languages of the NlpManager: `[&quot;en&quot;, &quot;tl&quot;, &quot;es&quot;, &quot;fr&quot;]`. -/
def supportedLangs : List String := ["en", "tl", "es", "fr"]

/-- Modelled from the spec: the per-language resolution of the Trainable
Matcher lives in the external node-nlp `NlpManager.process`, not in src.
Per the spec contract, an unknown `language` is treated as the `en`
fallback rather than an error; `models lang prompt` is the answer the
trained per-language model would produce. -/
def managerProcess (models : String → String → Option String)
    (language prompt : String) : Option String :=
  if language ∈ supportedLangs then models language prompt
  else models "en" prompt

/-- One registration call made against the NlpManager, language argument
left out. -/
inductive RegAction
  | addDocument (doc intent : String)
  | addAnswer (intent answer : String)
deriving DecidableEq, Repr

/-- One registration call with the language argument it was made with. -/
structure NlpCall where
  lang : String
  action : RegAction
deriving DecidableEq, Repr

/-- The registrations of `calls` that were made for language `lang`, in
order. -/
def regsForLang (calls : List NlpCall) (lang : String) : List RegAction :=
  (calls.filter (fun c => c.lang == lang)).map (fun c => c.action)

/-- Source `loadResponses`: rows outer loop, languages inner loop, body
`addDocument(lang, q, q); addAnswer(lang, q, a)`, recorded as the call
trace it performs. -/
def loadRegs (rows : List QAPair) : List NlpCall :=
  rows.flatMap (fun row =>
    supportedLangs.flatMap (fun lang =>
      [RegAction.addDocument row.question row.question,
       RegAction.addAnswer row.question row.answer].map
        (fun act => { lang := lang, action := act })))

/-- Source `app.get(&quot;/teach&quot;)` registration loop: for each language, body
`addDocument(lang, question, question); addAnswer(lang, question, answer)`. -/
def teachRegs (question answer : String) : List NlpCall :=
  supportedLangs.flatMap (fun lang =>
    [RegAction.addDocument question question,
     RegAction.addAnswer question answer].map
      (fun act => { lang := lang, action := act }))

/-- First-occurrence deduplication, as JavaScript `Set` iteration order and
object-key insertion order give it. -/
def dedupFirst : List String → List String :=
  List.foldl (fun acc x => if x ∈ acc then acc else acc ++ [x]) []

/-- The keys of `responsesMap` in source `autoLearnFromResponses`: the
distinct questions in first-occurrence order. -/
def distinctQuestions (rows : List QAPair) : List String :=
  dedupFirst (rows.map (fun row => row.question))

/-- `uniqueAnswers` for one question in source `autoLearnFromResponses`:
the distinct answers taught for it, in first-occurrence order. -/
def answersFor (rows : List QAPair) (q : String) : List String :=
  dedupFirst ((rows.filter (fun row => row.question == q)).map (fun row => row.answer))

/-- Source `autoLearnFromResponses`: for each distinct question and each of
its unique answers, `addAnswer` is called once per language, recorded as
the call trace it performs. -/
def autoLearnRegs (rows : List QAPair) : List NlpCall :=
  (distinctQuestions rows).flatMap (fun q =>
    (answersFor rows q).flatMap (fun a =>
      supportedLangs.flatMap (fun lang =>
        [RegAction.addAnswer q a].map (fun act => { lang := lang, action := act }))))

/-! ## Helper lemmas -/

lemma validateApiKey_iff_find (file : Option (List ApiKey)) (apiKey : String) (now : Int) :
    validateApiKey file apiKey now = true
      ↔ ∃ r, (loadApiKeys file).find? (fun key => key.api_key == apiKey) = some r
          ∧ now < r.expiration := by
  unfold validateApiKey
  cases hf : (loadApiKeys file).find? (fun key => key.api_key == apiKey) with
  | none => simp
  | some r => simp

/-! ## Claims about the credential lifecycle -/

/-- Claim C10: when the persisted credential file does not exist, loading
yields the empty record set, every token is invalid (so every gated
request gets the 403 response), and the key listing is 200 with an empty
list. -/
theorem missing_keyfile_behavior (apiKey prompt : String) (now : Int) (ans : Option String)
    (tzdb : String → Bool) (fmt : String → String) (fz : List String) :
    loadApiKeys none = []
  ∧ validateApiKey none apiKey now = false
  ∧ apiKeysHandler none = (200, [])
  ∧ nashHandler none now apiKey ans prompt tzdb fmt fz = (403, "Invalid API key") := by
  refine ⟨rfl, rfl, rfl, ?_⟩
  simp [nashHandler, validateApiKey, loadApiKeys]

/-- Claim C7: the sweep keeps a record exactly when it is unexpired, with
unchanged multiplicity, so unexpired records are untouched and expired
ones removed; it is idempotent at a fixed instant, and afterwards no
stored record is expired. -/
theorem sweep_removes_exactly_expired (apiKeys : List ApiKey) (now : Int) :
    sweepList (sweepList apiKeys now) now = sweepList apiKeys now
  ∧ (∀ key ∈ sweepList apiKeys now, now < key.expiration)
  ∧ (∀ key : ApiKey, (sweepList apiKeys now).count key
      = if now < key.expiration then apiKeys.count key else 0) := by
  refine ⟨?_, ?_, ?_⟩
  · simp [sweepList, List.filter_filter]
  · intro key hk
    simpa using List.of_mem_filter hk
  · intro key
    by_cases h : now < key.expiration
    · rw [if_pos h]
      exact List.count_filter (by simpa using h)
    · rw [if_neg h]
      rw [List.count_eq_zero]
      intro hmem
      exact h (by simpa using List.of_mem_filter hmem)

theorem sweep_removes_exactly_expired_witness :
    ((5 : Int) < 10)
  ∧ (sweepList [{ api_key := "a", expiration := 10 }, { api_key := "b", expiration := 0 }] 5).count
      { api_key := "b", expiration := 0 } = 0 := by
  constructor
  · exact (sweep_removes_exactly_expired
      [{ api_key := "a", expiration := 10 }, { api_key := "b", expiration := 0 }] 5).2.1
      { api_key := "a", expiration := 10 } (by decide)
  · have h := (sweep_removes_exactly_expired
      [{ api_key := "a", expiration := 10 }, { api_key := "b", expiration := 0 }] 5).2.2
      { api_key := "b", expiration := 0 }
    simpa using h

/-- Claim C5 as stated is false: `validateApiKey` tests only the first
record whose token matches, so a state holding an expired record before an
unexpired one with the same token invalidates a token the existential
reading accepts. -/
theorem validateApiKey_exists_reading_false :
    ¬ (∀ (file : Option (List ApiKey)) (apiKey : String) (now : Int),
        validateApiKey file apiKey now = true
          ↔ ∃ r ∈ loadApiKeys file, r.api_key = apiKey ∧ now < r.expiration) := by
  intro h
  have h2 := (h (some [{ api_key := "t", expiration := 0 },
                       { api_key := "t", expiration := 10 }]) "t" 5).2 (by decide)
  exact absurd h2 (by decide)

/-- Claim C5 (amended): validation is exact and strict on the first
matching record: `isValid token` is true iff the first stored record whose
token equals the given token exactly exists and is strictly unexpired;
when no two stored records share a token this coincides with the
existential reading of the claim. -/
theorem validateApiKey_first_match_spec (file : Option (List ApiKey)) (apiKey : String) (now : Int) :
    (validateApiKey file apiKey now = true
      ↔ ∃ r, (loadApiKeys file).find? (fun key => key.api_key == apiKey) = some r
          ∧ now < r.expiration)
  ∧ (((loadApiKeys file).map (fun r => r.api_key)).Nodup →
      (validateApiKey file apiKey now = true
        ↔ ∃ r ∈ loadApiKeys file, r.api_key = apiKey ∧ now < r.expiration)) := by
  refine ⟨validateApiKey_iff_find file apiKey now, fun hnd => ⟨fun hv => ?_, fun hex => ?_⟩⟩
  · obtain ⟨r, hfind, hexp⟩ := (validateApiKey_iff_find file apiKey now).1 hv
    have hp := List.find?_some hfind
    exact ⟨r, List.mem_of_find?_eq_some hfind, by simpa using hp, hexp⟩
  · obtain ⟨r, hr, hkey, hexp⟩ := hex
    have hsome : ((loadApiKeys file).find? (fun key => key.api_key == apiKey)).isSome :=
      List.find?_isSome.2 ⟨r, hr, by simp [hkey]⟩
    obtain ⟨r0, hr0⟩ := Option.isSome_iff_exists.1 hsome
    have hp0 : r0.api_key = apiKey := by simpa using List.find?_some hr0
    have hmem0 := List.mem_of_find?_eq_some hr0
    have heq : r0 = r :=
      List.inj_on_of_nodup_map hnd hmem0 hr (by rw [hp0, hkey])
    exact (validateApiKey_iff_find file apiKey now).2 ⟨r0, hr0, by rw [heq]; exact hexp⟩

theorem validateApiKey_first_match_spec_witness :
    validateApiKey (some [{ api_key := "t", expiration := 10 }]) "t" 5 = true :=
  ((validateApiKey_first_match_spec (some [{ api_key := "t", expiration := 10 }]) "t" 5).2
    (by decide)).2 (by decide)

/-- Claim C6: generation builds the prefixed token from the random hex,
stamps now plus the seven-day window, appends exactly that one record to
the loaded record set, and returns the token; when the fresh token does
not collide with a stored one, the fresh token validates immediately. -/
theorem generateApiKey_spec (randHex : String) (now : Int) (file : Option (List ApiKey))
    (hfresh : ∀ r ∈ loadApiKeys file, r.api_key ≠ "nsh-" ++ randHex) :
    (generateApiKey randHex now file).1 = "nsh-" ++ randHex
  ∧ (generateApiKey randHex now file).2
      = loadApiKeys file
        ++ [{ api_key := "nsh-" ++ randHex, expiration := now + 7 * dayMs }]
  ∧ validateApiKey (some (generateApiKey randHex now file).2)
      ((generateApiKey randHex now file).1) now = true := by
  refine ⟨rfl, rfl, ?_⟩
  have hnone : (loadApiKeys file).find? (fun key => key.api_key == "nsh-" ++ randHex) = none := by
    rw [List.find?_eq_none]
    intro x hx
    simpa using hfresh x hx
  have h2 : loadApiKeys (some (generateApiKey randHex now file).2)
      = loadApiKeys file
        ++ [({ api_key := "nsh-" ++ randHex, expiration := now + 7 * dayMs } : ApiKey)] := rfl
  have h1 : (generateApiKey randHex now file).1 = "nsh-" ++ randHex := rfl
  rw [validateApiKey_iff_find, h1, h2, List.find?_append, hnone, Option.none_or]
  refine ⟨{ api_key := "nsh-" ++ randHex, expiration := now + 7 * dayMs },
    by simp [List.find?], by simp only [dayMs]; omega⟩

theorem generateApiKey_spec_witness :
    (generateApiKey "ab" 0 none).1 = "nsh-ab"
  ∧ validateApiKey (some (generateApiKey "ab" 0 none).2) ((generateApiKey "ab" 0 none).1) 0
      = true := by
  have h := generateApiKey_spec "ab" 0 none (by decide)
  exact ⟨by rw [h.1]; decide, h.2.2⟩

/-! ## Claims about teaching -/

lemma teach_exists_iff (store : List QAPair) (q a : String) :
    0 < (store.filter (fun row => row.question == q && row.answer == a)).length
      ↔ ({ question := q, answer := a } : QAPair) ∈ store := by
  rw [← List.countP_eq_length_filter, List.countP_pos_iff]
  constructor
  · rintro ⟨row, hrow, hp⟩
    obtain ⟨rq, ra⟩ := row
    simp only [Bool.and_eq_true, beq_iff_eq] at hp
    rw [show ({ question := q, answer := a } : QAPair) = ⟨rq, ra⟩ by rw [hp.1, hp.2]]
    exact hrow
  · intro hmem
    exact ⟨{ question := q, answer := a }, hmem, by simp⟩

lemma teachHandler_fst (store : List QAPair) (q a : String) (tf : Bool) :
    (teachHandler store q a tf).1
      = if ({ question := q, answer := a } : QAPair) ∈ store then store
        else store ++ [{ question := q, answer := a }] := by
  by_cases hmem : ({ question := q, answer := a } : QAPair) ∈ store
  · rw [if_pos hmem]
    have hc := (teach_exists_iff store q a).2 hmem
    simp [teachHandler, hc]
  · rw [if_neg hmem]
    have hc : ¬ 0 < (store.filter (fun row => row.question == q && row.answer == a)).length :=
      fun h => hmem ((teach_exists_iff store q a).1 h)
    cases tf <;> simp [teachHandler, hc]

/-- Claim C2: teaching an exact duplicate inserts nothing and returns the
200 already-exists outcome; the no-duplicate invariant is preserved by
every teach; and after teaching the same pair twice the store holds
exactly one copy of that pair, the second call reporting already-exists
with 200. -/
theorem teach_dedup_idempotent (store : List QAPair) (q a : String) (tf1 tf2 : Bool)
    (hinv : ∀ p : QAPair, store.count p ≤ 1) :
    (({ question := q, answer := a } : QAPair) ∈ store →
      teachHandler store q a tf1 = (store, 200, "This answer already exists for the question"))
  ∧ (∀ p : QAPair, ((teachHandler store q a tf1).1).count p ≤ 1)
  ∧ (teachHandler (teachHandler store q a tf1).1 q a tf2).1.count
      ({ question := q, answer := a } : QAPair) = 1
  ∧ teachHandler (teachHandler store q a tf1).1 q a tf2
      = ((teachHandler store q a tf1).1, 200, "This answer already exists for the question") := by
  have hmem1 : ({ question := q, answer := a } : QAPair) ∈ (teachHandler store q a tf1).1 := by
    rw [teachHandler_fst]
    by_cases hmem : ({ question := q, answer := a } : QAPair) ∈ store
    · rwa [if_pos hmem]
    · rw [if_neg hmem]
      simp
  have hgen : ∀ st : List QAPair, ({ question := q, answer := a } : QAPair) ∈ st →
      teachHandler st q a tf2 = (st, 200, "This answer already exists for the question") := by
    intro st hmemst
    have hc := (teach_exists_iff st q a).2 hmemst
    simp [teachHandler, hc]
  have hsecond : teachHandler (teachHandler store q a tf1).1 q a tf2
      = ((teachHandler store q a tf1).1, 200, "This answer already exists for the question") :=
    hgen _ hmem1
  refine ⟨?_, ?_, ?_, hsecond⟩
  · intro hmem
    have hc := (teach_exists_iff store q a).2 hmem
    simp [teachHandler, hc]
  · intro p
    rw [teachHandler_fst]
    by_cases hmem : ({ question := q, answer := a } : QAPair) ∈ store
    · rw [if_pos hmem]
      exact hinv p
    · rw [if_neg hmem, List.count_append]
      by_cases hp : p = { question := q, answer := a }
      · subst hp
        have h0 : store.count ({ question := q, answer := a } : QAPair) = 0 :=
          List.count_eq_zero.2 hmem
        simp [h0, List.count_singleton]
      · have h0 : (List.count p [({ question := q, answer := a } : QAPair)]) = 0 := by
          rw [List.count_singleton, if_neg]
          simpa using fun h => hp h.symm
        rw [h0]
        simpa using hinv p
  · rw [hsecond]
    rw [teachHandler_fst]
    by_cases hmem : ({ question := q, answer := a } : QAPair) ∈ store
    · rw [if_pos hmem]
      have hle := hinv ({ question := q, answer := a } : QAPair)
      have hge : 0 < store.count ({ question := q, answer := a } : QAPair) :=
        List.count_pos_iff.2 hmem
      omega
    · rw [if_neg hmem, List.count_append]
      have h0 : store.count ({ question := q, answer := a } : QAPair) = 0 :=
        List.count_eq_zero.2 hmem
      simp [h0, List.count_singleton]

theorem teach_dedup_idempotent_witness :
    teachHandler [({ question := "q", answer := "a" } : QAPair)] "q" "a" false
      = ([{ question := "q", answer := "a" }], 200,
          "This answer already exists for the question")
  ∧ (teachHandler (teachHandler [] "q" "a" false).1 "q" "a" false).1.count
      ({ question := "q", answer := "a" } : QAPair) = 1 := by
  constructor
  · exact (teach_dedup_idempotent [{ question := "q", answer := "a" }] "q" "a" false false
      (fun p => by rw [List.count_singleton]; split <;> omega)).1 (by decide)
  · exact (teach_dedup_idempotent [] "q" "a" false false (fun p => by simp)).2.2.1

/-- Claim C9: teach is not atomic on a late failure: when the pair is new
and the train or save step fails, the handler returns the 500 outcome
while the inserted pair remains in the store. -/
theorem teach_insert_survives_train_failure (store : List QAPair) (q a : String)
    (hnot : ({ question := q, answer := a } : QAPair) ∉ store) :
    teachHandler store q a true
      = (store ++ [{ question := q, answer := a }], 500, "Error training the chatbot")
  ∧ ({ question := q, answer := a } : QAPair) ∈ (teachHandler store q a true).1 := by
  have hc : ¬ 0 < (store.filter (fun row => row.question == q && row.answer == a)).length :=
    fun h => hnot ((teach_exists_iff store q a).1 h)
  constructor
  · simp [teachHandler, hc]
  · simp [teachHandler, hc]

theorem teach_insert_survives_train_failure_witness :
    teachHandler [] "x" "y" true
      = ([{ question := "x", answer := "y" }], 500, "Error training the chatbot") :=
  (teach_insert_survives_train_failure [] "x" "y" (by decide)).1

/-! ## Claims about the resolution pipeline -/

/-- Claim C1 as stated is false: the matcher stage short-circuits on
JavaScript truthiness of `response.answer`, so a returned empty-string
answer is not made the response; on a prompt that also matches the time
pattern the time stage answers instead. -/
theorem nash_matcher_first_claim_false :
    ¬ (∀ (a prompt : String) (tzdb : String → Bool) (fmt : String → String) (fz : List String),
        nashResolve (some a) prompt tzdb fmt fz = (a, RSource.matcher)) := by
  intro h
  have h2 := h "" "current time in London" (fun _ => false) (fun _ => "") []
  have h3 : nashResolve (some "") "current time in London" (fun _ => false) (fun _ => "") []
      = ("Invalid timezone.", RSource.temporal) := rfl
  rw [h3] at h2
  exact absurd h2 (by decide)

/-- Claim C1 (amended): the pipeline evaluates its strategies in strict
priority order with short-circuit, where the matcher stage succeeds
exactly when its answer is truthy, that is nonempty: a nonempty matcher
answer is the response (in particular it beats a time-query prompt); with
no truthy matcher answer, a time-pattern match yields the rendered time
response; otherwise a fuzzy hit yields the did-you-mean response naming
the matched question; otherwise the fixed message is returned. -/
theorem nash_priority_order (ans : Option String) (prompt : String) (tzdb : String → Bool)
    (fmt : String → String) (fz : List String) :
    (∀ a : String, ans = some a → a ≠ "" →
        nashResolve ans prompt tzdb fmt fz = (a, RSource.matcher))
  ∧ (answerTruthy ans = false → ∀ loc : String, extractTimeQuery prompt = some loc →
        nashResolve ans prompt tzdb fmt fz
          = (generateTimeResponse tzdb fmt (spacesToUnderscores loc), RSource.temporal))
  ∧ (answerTruthy ans = false → extractTimeQuery prompt = none →
      ∀ (m : String) (ms : List String), fz = m :: ms →
        nashResolve ans prompt tzdb fmt fz = ("Did you mean: \"" ++ m ++ "\"?", RSource.fuzzy))
  ∧ (answerTruthy ans = false → extractTimeQuery prompt = none → fz = [] →
        nashResolve ans prompt tzdb fmt fz = (dontKnowMessage, RSource.defaultMsg)) := by
  refine ⟨?_, ?_, ?_, ?_⟩
  · rintro a rfl ha
    have ht : answerTruthy (some a) = true := by
      simp [answerTruthy, ha]
    simp [nashResolve, ht]
  · intro hf loc hloc
    simp [nashResolve, hf, hloc]
  · rintro hf hnone m ms rfl
    simp [nashResolve, hf, hnone]
  · rintro hf hnone rfl
    simp [nashResolve, hf, hnone]

theorem nash_priority_order_witness :
    nashResolve (some "A") "current time in London please" (fun _ => false) (fun _ => "") []
      = ("A", RSource.matcher)
  ∧ nashResolve none "current time in London" (fun _ => true) (fun _ => "T") []
      = ("The current time in London is T.", RSource.temporal)
  ∧ nashResolve none "hello" (fun _ => false) (fun _ => "") ["known question"]
      = ("Did you mean: \"known question\"?", RSource.fuzzy)
  ∧ nashResolve none "hello" (fun _ => false) (fun _ => "") []
      = (dontKnowMessage, RSource.defaultMsg) := by
  refine ⟨?_, ?_, ?_, ?_⟩
  · exact (nash_priority_order (some "A") "current time in London please"
      (fun _ => false) (fun _ => "") []).1 "A" rfl (by decide)
  · exact (nash_priority_order none "current time in London"
      (fun _ => true) (fun _ => "T") []).2.1 rfl "London" (by decide)
  · exact (nash_priority_order none "hello"
      (fun _ => false) (fun _ => "") ["known question"]).2.2.1 rfl (by decide)
      "known question" [] rfl
  · exact (nash_priority_order none "hello"
      (fun _ => false) (fun _ => "") []).2.2.2 rfl (by decide) rfl

/-- Claim C3: a prompt matching the time pattern with a zone missing from
the timezone database gets the literal invalid-timezone message as a 200
resolution whenever the matcher stage did not answer; the pipeline never
reaches the fuzzy or default branch on such a prompt. -/
theorem invalid_timezone_is_success (file : Option (List ApiKey)) (now : Int)
    (apiKey : String) (ans : Option String) (prompt loc : String) (tzdb : String → Bool)
    (fmt : String → String) (fz : List String)
    (hmatch : extractTimeQuery prompt = some loc)
    (hzone : tzdb (spacesToUnderscores loc) = false) :
    generateTimeResponse tzdb fmt (spacesToUnderscores loc) = "Invalid timezone."
  ∧ (nashResolve ans prompt tzdb fmt fz).2 ≠ RSource.fuzzy
  ∧ (nashResolve ans prompt tzdb fmt fz).2 ≠ RSource.defaultMsg
  ∧ (answerTruthy ans = false →
      nashResolve ans prompt tzdb fmt fz = ("Invalid timezone.", RSource.temporal))
  ∧ (answerTruthy ans = false → validateApiKey file apiKey now = true →
      nashHandler file now apiKey ans prompt tzdb fmt fz = (200, "Invalid timezone.")) := by
  have hmsg : generateTimeResponse tzdb fmt (spacesToUnderscores loc) = "Invalid timezone." := by
    simp [generateTimeResponse, hzone]
  have hres : answerTruthy ans = false →
      nashResolve ans prompt tzdb fmt fz = ("Invalid timezone.", RSource.temporal) := by
    intro hf
    simp [nashResolve, hf, hmatch, hmsg]
  refine ⟨hmsg, ?_, ?_, hres, ?_⟩
  · cases ht : answerTruthy ans with
    | true => simp [nashResolve, ht]
    | false => rw [hres ht]; simp
  · cases ht : answerTruthy ans with
    | true => simp [nashResolve, ht]
    | false => rw [hres ht]; simp
  · intro hf hv
    simp [nashHandler, hv, hres hf]

theorem invalid_timezone_is_success_witness :
    nashHandler (some [{ api_key := "k", expiration := 10 }]) 0 "k" none
      "current time in Nowhereland" (fun _ => false) (fun _ => "") ["q"]
      = (200, "Invalid timezone.") :=
  (invalid_timezone_is_success (some [{ api_key := "k", expiration := 10 }]) 0 "k" none
    "current time in Nowhereland" "Nowhereland" (fun _ => false) (fun _ => "") ["q"]
    (by decide) rfl).2.2.2.2 rfl (by decide)

/-- Claim C8: a supplied language outside the four supported ones resolves
exactly as the en fallback, both at the matcher and through the full
handler, rather than erroring. -/
theorem unknown_language_en_fallback (models : String → String → Option String)
    (language prompt : String) (file : Option (List ApiKey)) (now : Int) (apiKey : String)
    (tzdb : String → Bool) (fmt : String → String) (fz : List String)
    (hlang : language ∉ supportedLangs) :
    managerProcess models language prompt = managerProcess models "en" prompt
  ∧ nashHandler file now apiKey (managerProcess models language prompt) prompt tzdb fmt fz
      = nashHandler file now apiKey (managerProcess models "en" prompt) prompt tzdb fmt fz := by
  have h : managerProcess models language prompt = managerProcess models "en" prompt := by
    rw [managerProcess, managerProcess, if_neg hlang, if_pos (by decide)]
  exact ⟨h, by rw [h]⟩

theorem unknown_language_en_fallback_witness :
    managerProcess (fun lang _ => some lang) "de" "hi"
      = managerProcess (fun lang _ => some lang) "en" "hi" :=
  (unknown_language_en_fallback (fun lang _ => some lang) "de" "hi" none 0 "k"
    (fun _ => false) (fun _ => "") [] (by decide)).1

/-! ## Claim about uniform registration across languages -/

lemma regsForLang_append (xs ys : List NlpCall) (l : String) :
    regsForLang (xs ++ ys) l = regsForLang xs l ++ regsForLang ys l := by
  simp [regsForLang]

lemma regsForLang_flatMap {α : Type} (xs : List α) (g : α → List NlpCall) (l : String) :
    regsForLang (xs.flatMap g) l = xs.flatMap (fun x => regsForLang (g x) l) := by
  induction xs with
  | nil => simp [regsForLang]
  | cons x xs ih => simp only [List.flatMap_cons, regsForLang_append, ih]

lemma regsForLang_tagged (acts : List RegAction) (L l : String) :
    regsForLang (acts.map (fun act => { lang := L, action := act })) l
      = if (L == l) = true then acts else [] := by
  induction acts with
  | nil => cases h : L == l <;> simp [regsForLang, h]
  | cons a as ih =>
    cases h : L == l <;>
      simp only [h, if_true, if_false] at ih <;>
      simp [regsForLang, List.filter_cons, h] at ih ⊢ <;>
      simpa [regsForLang] using ih

lemma regsForLang_langBlock (acts : List RegAction) (l : String) (hl : l ∈ supportedLangs) :
    regsForLang (supportedLangs.flatMap
      (fun lang => acts.map (fun act => { lang := lang, action := act }))) l = acts := by
  rw [regsForLang_flatMap]
  fin_cases hl <;>
    simp [supportedLangs, regsForLang_tagged]

/-- Claim C4: each of the three registration paths (startup load,
incremental teach, periodic auto-learning) performs, for every pair of
supported languages, the same sequence of registrations for one language
as for the other. -/
theorem registrations_uniform_across_languages (rows : List QAPair)
    (question answer : String) (l1 l2 : String)
    (h1 : l1 ∈ supportedLangs) (h2 : l2 ∈ supportedLangs) :
    regsForLang (loadRegs rows) l1 = regsForLang (loadRegs rows) l2
  ∧ regsForLang (teachRegs question answer) l1 = regsForLang (teachRegs question answer) l2
  ∧ regsForLang (autoLearnRegs rows) l1 = regsForLang (autoLearnRegs rows) l2 := by
  refine ⟨?_, ?_, ?_⟩
  · rw [loadRegs, regsForLang_flatMap, regsForLang_flatMap]
    refine congrArg _ (funext fun row => ?_)
    rw [regsForLang_langBlock _ _ h1, regsForLang_langBlock _ _ h2]
  · rw [teachRegs, regsForLang_langBlock _ _ h1, regsForLang_langBlock _ _ h2]
  · rw [autoLearnRegs, regsForLang_flatMap, regsForLang_flatMap]
    refine congrArg _ (funext fun q => ?_)
    rw [regsForLang_flatMap, regsForLang_flatMap]
    refine congrArg _ (funext fun a => ?_)
    rw [regsForLang_langBlock _ _ h1, regsForLang_langBlock _ _ h2]

theorem registrations_uniform_across_languages_witness :
    regsForLang (loadRegs [{ question := "q", answer := "a" }]) "en"
      = regsForLang (loadRegs [{ question := "q", answer := "a" }]) "fr"
  ∧ regsForLang (teachRegs "q2" "a2") "en" = regsForLang (teachRegs "q2" "a2") "fr"
  ∧ regsForLang (autoLearnRegs [{ question := "q", answer := "a" }]) "en"
      = regsForLang (autoLearnRegs [{ question := "q", answer := "a" }]) "fr" :=
  registrations_uniform_across_languages [{ question := "q", answer := "a" }] "q2" "a2"
    "en" "fr" (by decide) (by decide)

end Sim
